import Mathlib

/-!
Verification development for the Rusty-DNS zone-dispatch and
response-synthesis engine (`src/handlers.rs`, `src/options.rs`).

The embedding translates the handler code into executable Lean
definitions:

* DNS names are lists of labels (`List String`), mirroring
  `trust_dns` `LowerName` values (already lowercased); the textual
  form used by the Cidr and Epoch handlers is the dot-joined label
  string followed by the trailing root dot, because `trust_dns`
  `Display` renders every wire-parsed (fully-qualified) name with a
  trailing dot — `Name::to_string` on a wire query for
  `epoch.0.mentisnovae.tech` yields `"epoch.0.mentisnovae.tech."`.
* Machine integers are `Nat` with explicit `% 2 ^ w` where wrapping
  matters; arithmetic that panics in a Rust debug build (overflowing
  shifts and subtractions) is modelled by an explicit panic outcome.
* The `rand` and transport collaborators are oracles threaded through
  an `Env` record: the coin flip, the dice roll, the success of the
  transport send, and the endianness of the host (which the Cidr
  handler observes through `u32::to_be`).
* External library functions that the source calls (`IpAddr` parsing
  and display from Rust std, `chrono` timestamp conversion and
  formatting, `trust_dns` name parsing) are modelled here; each such
  definition carries a doc comment saying so.
-/

namespace RustyDNS

/-- DNS response codes used by the server (`trust_dns` `ResponseCode` subset). -/
inductive RCode
  | noError
  | nxDomain
  | servFail
deriving DecidableEq, Repr

/-- Message op codes (`trust_dns` `OpCode` subset; `query` is `OpCode::Query`). -/
inductive OpCodeT
  | query
  | status
  | notify
  | update
deriving DecidableEq, Repr

/-- Message types (`trust_dns` `MessageType`). -/
inductive MsgTypeT
  | query
  | response
deriving DecidableEq, Repr

/-- An IPv4 address as four octets (each `< 256`). -/
structure V4 where
  o1 : Nat
  o2 : Nat
  o3 : Nat
  o4 : Nat
deriving DecidableEq, Repr

/-- An IPv6 address as eight 16-bit groups (each `< 2 ^ 16`). -/
structure V6 where
  g1 : Nat
  g2 : Nat
  g3 : Nat
  g4 : Nat
  g5 : Nat
  g6 : Nat
  g7 : Nat
  g8 : Nat
deriving DecidableEq, Repr

/-- `std::net::IpAddr`. -/
inductive IpAddrT
  | v4 (x : V4)
  | v6 (x : V6)
deriving DecidableEq, Repr

/-- Record data emitted by the handlers: A, AAAA and TXT records. -/
inductive RData
  | A (x : V4)
  | AAAA (x : V6)
  | TXT (ss : List String)
deriving DecidableEq, Repr

/-- A DNS answer record: owner name (labels), TTL, record data. -/
structure DRecord where
  name : List String
  ttl : Nat
  rdata : RData
deriving DecidableEq, Repr

/-- The header bits the handler code manipulates: response code and the
authoritative flag.  `ResponseInfo` in `trust_dns` wraps a header, so the
same record doubles as the `ResponseInfo` the dispatcher returns. -/
structure HeaderT where
  rcode : RCode
  authoritative : Bool
deriving DecidableEq, Repr

/-- A response message handed to `ResponseHandler::send_response`:
header plus answer records (the three extra record sections are always
empty in this program and are omitted). -/
structure DnsResponse where
  header : HeaderT
  answers : List DRecord
deriving DecidableEq, Repr

/-- The parsed inbound query exposed by the transport layer:
op code, message type, question name (lowercase labels) and the client
source address. -/
structure DnsRequest where
  opCode : OpCodeT
  msgType : MsgTypeT
  qname : List String
  src : IpAddrT
deriving DecidableEq, Repr

/-- The `Error` enum of `handlers.rs`, variant for variant.  Note that it
has exactly four variants: there is no `InvalidCidrQuery` and no
`InvalidEpochQuery` variant in the source. -/
inductive ErrorT
  | invalidOpCode (c : OpCodeT)
  | invalidMessageType (t : MsgTypeT)
  | invalidZone (n : List String)
  | io
deriving DecidableEq, Repr

/-- The `Handler` struct of `handlers.rs`: the shared counter's initial
value and the seven zone names.  The live counter value is threaded
explicitly through the request-handling functions (it models the
`Arc<AtomicU64>` cell). -/
structure Handler where
  counter : Nat
  root_zone : List String
  counter_zone : List String
  myip_zone : List String
  coin_zone : List String
  dice_zone : List String
  cidr_zone : List String
  time_zone : List String
deriving DecidableEq, Repr

/-- Oracles for the external collaborators of one request: whether the
transport send succeeds, the `rand::random()` coin flip, the
`gen_range(1..7)` dice value, and whether the host is little-endian
(observed by `u32::to_be` in the Cidr handler). -/
structure Env where
  sendOk : Bool
  coin : Bool
  dice : Nat
  le : Bool
deriving DecidableEq, Repr

/-- Outcome of one `do_handle_request*` call: a returned `ResponseInfo`,
a returned `Error`, the ad-hoc non-`Error` failure value the Epoch
handler builds with `format_args!` (`errFmt`), or a panic (the `todo!()`
placeholders and overflowing arithmetic in a debug build). -/
inductive HRes
  | ok (info : HeaderT)
  | err (e : ErrorT)
  | errFmt
  | panic
deriving DecidableEq, Repr

/-- Outcome of the outermost `handle_request`: a `ResponseInfo`, or a
panic escaping the boundary. -/
inductive TopRes
  | info (i : HeaderT)
  | panic
deriving DecidableEq, Repr

/-! ### Character-list utilities used to model Rust string operations -/

/-- Split a character list on a separator character; mirrors Rust
`str::split`, in particular `splitOnChar c [] = [[]]`. -/
def splitOnChar (sep : Char) : List Char → List (List Char)
  | [] => [[]]
  | c :: cs =>
    if c = sep then [] :: splitOnChar sep cs
    else
      match splitOnChar sep cs with
      | [] => [[c]]
      | g :: gs => (c :: g) :: gs

/-- Strip a leading pattern from a character list; mirrors
`str::strip_prefix` (`none` models Rust `None`). -/
def dropStart : List Char → List Char → Option (List Char)
  | [], s => some s
  | _ :: _, [] => none
  | p :: ps, c :: cs => if c = p then dropStart ps cs else none

/-- Strip a trailing pattern from a character list; mirrors
`str::strip_suffix`. -/
def dropEndChars (pat s : List Char) : Option (List Char) :=
  (dropStart pat.reverse s.reverse).map List.reverse

/-- Join name labels with dots. -/
def joinDots : List String → String
  | [] => ""
  | [l] => l
  | l :: ls => l ++ "." ++ joinDots ls

/-- Modelled from `trust_dns`: `Name::to_string` on a wire-parsed name.
Names parsed from the wire are fully qualified and `Display` renders
them with the trailing root dot, so the textual form is the dot-joined
labels plus a final `.`. -/
def nameToString (q : List String) : String := joinDots q ++ "."

/-- Decimal digit test (ASCII), as in Rust integer parsing. -/
def isDigitC (c : Char) : Bool := c.isDigit

/-- Numeric value of a decimal digit string (assumes digits only). -/
def digitsToNat (l : List Char) : Nat :=
  l.foldl (fun a c => a * 10 + (c.toNat - '0'.toNat)) 0

/-- Parse a nonempty all-digit character list. -/
def parseNatChars (l : List Char) : Option Nat :=
  if l ≠ [] ∧ l.all isDigitC then some (digitsToNat l) else none

/-- Modelled from Rust std: `u64::from_str` — optional leading `+`, one
or more ASCII digits, value below `2 ^ 64`; a leading `-` fails. -/
def parseU64Chars (l : List Char) : Option Nat :=
  let body := match l with
    | '+' :: r => r
    | _ => l
  match parseNatChars body with
  | some n => if n < 2 ^ 64 then some n else none
  | none => none

/-- Modelled from Rust std: `u8::from_str`, value below `2 ^ 8`. -/
def parseU8Chars (l : List Char) : Option Nat :=
  let body := match l with
    | '+' :: r => r
    | _ => l
  match parseNatChars body with
  | some n => if n < 2 ^ 8 then some n else none
  | none => none

/-- Modelled from Rust std: one dotted-quad octet — one to three digits,
no sign, no leading zero (except `0` itself), value at most 255. -/
def parseOctet (l : List Char) : Option Nat :=
  if l = [] ∨ l.length > 3 then none
  else if ¬ l.all isDigitC then none
  else if l.length > 1 ∧ l.headD ' ' = '0' then none
  else
    let v := digitsToNat l
    if v ≤ 255 then some v else none

/-- Modelled from Rust std: `Ipv4Addr::from_str` — four dot-separated
octets. -/
def parseIpv4Chars (l : List Char) : Option V4 :=
  match splitOnChar '.' l with
  | [a, b, c, d] =>
    match parseOctet a, parseOctet b, parseOctet c, parseOctet d with
    | some x, some y, some z, some w => some ⟨x, y, z, w⟩
    | _, _, _, _ => none
  | _ => none

/-- Hexadecimal digit value (both cases), for IPv6 groups. -/
def hexVal (c : Char) : Option Nat :=
  if c.isDigit then some (c.toNat - '0'.toNat)
  else if 'a' ≤ c ∧ c ≤ 'f' then some (c.toNat - 'a'.toNat + 10)
  else if 'A' ≤ c ∧ c ≤ 'F' then some (c.toNat - 'A'.toNat + 10)
  else none

/-- One IPv6 group: one to four hex digits. -/
def parseGroup (l : List Char) : Option Nat :=
  if l = [] ∨ l.length > 4 then none
  else
    l.foldl (fun acc c => acc.bind fun a => (hexVal c).map fun v => a * 16 + v) (some 0)

/-- Locate the first `::` in a character list, returning the pieces
before and after it. -/
def splitDoubleColon : List Char → Option (List Char × List Char)
  | [] => none
  | ':' :: ':' :: rest => some ([], rest)
  | c :: rest => (splitDoubleColon rest).map fun p => (c :: p.1, p.2)

/-- Parse a colon-separated run of IPv6 pieces; when `allowV4` is set the
final piece may be an embedded dotted-quad IPv4 address contributing two
groups (modelled from Rust std's IPv6 parser). -/
def parsePieces (allowV4 : Bool) : List (List Char) → Option (List Nat)
  | [] => some []
  | [p] =>
    if allowV4 ∧ p.contains '.' then
      (parseIpv4Chars p).map fun v => [v.o1 * 256 + v.o2, v.o3 * 256 + v.o4]
    else
      (parseGroup p).map fun g => [g]
  | p :: rest =>
    (parseGroup p).bind fun g => (parsePieces allowV4 rest).map fun gs => g :: gs

/-- Build a `V6` from exactly eight groups. -/
def mkV6 (gs : List Nat) : Option V6 :=
  match gs with
  | [a, b, c, d, e, f, g, h] => some ⟨a, b, c, d, e, f, g, h⟩
  | _ => none

/-- Modelled from Rust std: `Ipv6Addr::from_str` — eight groups, or an
`::` abbreviation standing for at least one zero group, with an optional
embedded IPv4 tail. -/
def parseIpv6Chars (l : List Char) : Option V6 :=
  match splitDoubleColon l with
  | none =>
    (parsePieces true (splitOnChar ':' l)).bind fun gs =>
      if gs.length = 8 then mkV6 gs else none
  | some (left, right) =>
    (if left = [] then some [] else parsePieces false (splitOnChar ':' left)).bind fun gl =>
    (if right = [] then some [] else parsePieces true (splitOnChar ':' right)).bind fun gr =>
    if gl.length + gr.length ≤ 7 then
      mkV6 (gl ++ List.replicate (8 - gl.length - gr.length) 0 ++ gr)
    else none

/-- Modelled from Rust std: `IpAddr::from_str` tries IPv4 first, then
IPv6. -/
def parseIpAddrChars (l : List Char) : Option IpAddrT :=
  match parseIpv4Chars l with
  | some v => some (IpAddrT.v4 v)
  | none => (parseIpv6Chars l).map IpAddrT.v6

/-! ### Address rendering (Rust `Display`) -/

/-- Decimal rendering of an IPv4 address, `a.b.c.d`. -/
def v4String (x : V4) : String :=
  toString x.o1 ++ "." ++ toString x.o2 ++ "." ++ toString x.o3 ++ "." ++ toString x.o4

/-- Lowercase hex digit. -/
def hexChar (n : Nat) : Char :=
  if n < 10 then Char.ofNat ('0'.toNat + n) else Char.ofNat ('a'.toNat + n - 10)

/-- Lowercase hexadecimal rendering without padding. -/
def hexString (n : Nat) : String :=
  let rec go (fuel n : Nat) (acc : List Char) : List Char :=
    match fuel with
    | 0 => acc
    | fuel + 1 => if n = 0 then acc else go fuel (n / 16) (hexChar (n % 16) :: acc)
  if n = 0 then "0" else String.mk (go 32 n [])

/-- Join rendered IPv6 groups with colons. -/
def joinColons : List String → String
  | [] => ""
  | [l] => l
  | l :: ls => l ++ ":" ++ joinColons ls

/-- Length of the zero run starting at position `i` of the group list. -/
def runLenAt (gs : List Nat) (i : Nat) : Nat :=
  ((gs.drop i).takeWhile (fun g => g = 0)).length

/-- Leftmost longest zero run (start, length) of a group list. -/
def bestZeroRun (gs : List Nat) : Nat × Nat :=
  (List.range gs.length).foldl
    (fun best i => if runLenAt gs i > best.2 then (i, runLenAt gs i) else best)
    (0, 0)

/-- Modelled from Rust std: `Ipv6Addr` `Display` — `::` for all-zero,
the IPv4-mapped special case, otherwise lowercase hex groups with the
leftmost longest run of two or more zero groups compressed. -/
def v6String (x : V6) : String :=
  let gs := [x.g1, x.g2, x.g3, x.g4, x.g5, x.g6, x.g7, x.g8]
  if gs.all (fun g => g = 0) then "::"
  else if (gs.take 5).all (fun g => g = 0) ∧ x.g6 = 0xffff then
    "::ffff:" ++ v4String ⟨x.g7 / 256, x.g7 % 256, x.g8 / 256, x.g8 % 256⟩
  else
    let best := bestZeroRun gs
    if best.2 < 2 then joinColons (gs.map hexString)
    else
      joinColons ((gs.take best.1).map hexString) ++ "::" ++
        joinColons ((gs.drop (best.1 + best.2)).map hexString)

/-- Rendering of an `IpAddr` (Rust `Display`). -/
def ipString : IpAddrT → String
  | .v4 x => v4String x
  | .v6 x => v6String x

/-! ### CIDR range arithmetic (`do_handle_request_cidr`, lines 431-452)

The IPv4 branch computes with `u32` values (the operative type of the
netmask); the literal `u128::from` written in the source does not even
type-check against std's conversions, so the embedding uses the `u32`
reading forced by the surrounding operations.  `to_be()` is the
identity on a big-endian host and a byte swap on a little-endian host;
`Ipv4Addr::from(u32)` interprets its argument in network order, so the
swap is observable in the produced addresses.  In the IPv6 branch
`to_be_bytes` followed by `Ipv6Addr::from([u8; 16])` is the identity on
the numeric value, so that branch has no endianness dependence.
Overflowing arithmetic (`32 - prefix_len` for `prefix_len > 32`,
`1 << 32`, `1 << 128`) panics in a Rust debug build; the embedding
models those panics explicitly. -/

/-- Numeric (network-order) value of an IPv4 address, `u32::from`. -/
def v4ToU32 (x : V4) : Nat :=
  x.o1 * 2 ^ 24 + x.o2 * 2 ^ 16 + x.o3 * 2 ^ 8 + x.o4

/-- IPv4 address of a `u32` value, `Ipv4Addr::from(u32)` (network
order). -/
def u32ToV4 (n : Nat) : V4 :=
  ⟨n / 2 ^ 24 % 256, n / 2 ^ 16 % 256, n / 2 ^ 8 % 256, n % 256⟩

/-- Numeric value of an IPv6 address (`u128::from`). -/
def v6ToU128 (x : V6) : Nat :=
  x.g1 * 2 ^ 112 + x.g2 * 2 ^ 96 + x.g3 * 2 ^ 80 + x.g4 * 2 ^ 64 +
  x.g5 * 2 ^ 48 + x.g6 * 2 ^ 32 + x.g7 * 2 ^ 16 + x.g8

/-- IPv6 address of a `u128` value. -/
def u128ToV6 (n : Nat) : V6 :=
  ⟨n / 2 ^ 112 % 2 ^ 16, n / 2 ^ 96 % 2 ^ 16, n / 2 ^ 80 % 2 ^ 16,
   n / 2 ^ 64 % 2 ^ 16, n / 2 ^ 48 % 2 ^ 16, n / 2 ^ 32 % 2 ^ 16,
   n / 2 ^ 16 % 2 ^ 16, n % 2 ^ 16⟩

/-- Byte swap of a `u32` value. -/
def byteSwap32 (n : Nat) : Nat :=
  (n % 256) * 2 ^ 24 + (n / 2 ^ 8 % 256) * 2 ^ 16 +
  (n / 2 ^ 16 % 256) * 2 ^ 8 + n / 2 ^ 24 % 256

/-- `u32::to_be`: identity on a big-endian host, byte swap on a
little-endian one. -/
def toBe32 (le : Bool) (n : Nat) : Nat :=
  if le then byteSwap32 n else n

/-- Outcome of the range computation: a panic (overflowing debug-build
arithmetic) or a start/end address pair. -/
inductive CidrOut
  | panic
  | range (s e : IpAddrT)
deriving DecidableEq, Repr

/-- The range computation of `do_handle_request_cidr` (lines 431-452),
for an already-parsed address and `u8` prefix length. -/
def cidrRange (le : Bool) (ip : IpAddrT) (plen : Nat) : CidrOut :=
  match ip with
  | .v4 x =>
    if plen > 32 then CidrOut.panic
    else
      let sh := 32 - plen
      if sh ≥ 32 then CidrOut.panic
      else
        let netmask := (2 ^ 32 - 1) - (2 ^ sh - 1)
        let start := v4ToU32 x &&& netmask
        let stop := start ||| ((2 ^ 32 - 1) - netmask)
        CidrOut.range (.v4 (u32ToV4 (toBe32 le start))) (.v4 (u32ToV4 (toBe32 le stop)))
  | .v6 x =>
    if plen > 128 then CidrOut.panic
    else
      let sh := 128 - plen
      if sh ≥ 128 then CidrOut.panic
      else
        let netmask := (2 ^ 128 - 1) - (2 ^ sh - 1)
        let start := v6ToU128 x &&& netmask
        let stop := start ||| ((2 ^ 128 - 1) - netmask)
        CidrOut.range (.v6 (u128ToV6 start)) (.v6 (u128ToV6 stop))

/-- The TXT payload the Cidr handler formats from a computed range
(line 454). -/
def cidrText (s e : IpAddrT) : String :=
  "Usable IP Range: " ++ ipString s ++ " - " ++ ipString e

/-! ### Timestamp conversion and formatting (`handle_epoch_request`)

The source parses the digit label as `u64` and casts it `as i64`, then
calls `chrono::NaiveDateTime::from_timestamp_opt` and formats with
`"%Y-%m-%d %H:%M:%S"`.  The chrono pieces are modelled here: a datetime
is represented by its epoch-second count, `from_timestamp_opt` checks
chrono's representable range, and the formatter uses the standard
civil-from-days algorithm. -/

/-- The Rust cast `u64 as i64` (two's-complement wrap). -/
def castI64 (n : Nat) : Int :=
  if n < 2 ^ 63 then (n : Int) else (n : Int) - 2 ^ 64

/-- Modelled from chrono: smallest epoch second representable by
`NaiveDateTime`. -/
def chronoMinSecs : Int := -8334632851200

/-- Modelled from chrono: largest epoch second representable by
`NaiveDateTime`. -/
def chronoMaxSecs : Int := 8210298412799

/-- Modelled from chrono: `NaiveDateTime::from_timestamp_opt(t, 0)`,
with the datetime represented by its epoch seconds. -/
def fromTimestampOpt (t : Int) : Option Int :=
  if chronoMinSecs ≤ t ∧ t ≤ chronoMaxSecs then some t else none

/-- Civil date (year, month, day) of a day count relative to
1970-01-01 (standard proleptic-Gregorian algorithm, as used by
chrono's formatting). -/
def civilFromDays (days : Int) : Int × Nat × Nat :=
  let z := days + 719468
  let era := Int.fdiv z 146097
  let doe := (z - era * 146097).toNat
  let yoe := (doe - doe / 1460 + doe / 36524 - doe / 146096) / 365
  let y : Int := (yoe : Int) + era * 400
  let doy := doe - (365 * yoe + yoe / 4 - yoe / 100)
  let mp := (5 * doy + 2) / 153
  let d := doy - (153 * mp + 2) / 5 + 1
  let m := if mp < 10 then mp + 3 else mp - 9
  (if m ≤ 2 then y + 1 else y, m, d)

/-- Two-digit zero padding. -/
def pad2 (n : Nat) : String :=
  if n < 10 then "0" ++ toString n else toString n

/-- Four-digit zero padding. -/
def pad4 (n : Nat) : String :=
  if n < 10 then "000" ++ toString n
  else if n < 100 then "00" ++ toString n
  else if n < 1000 then "0" ++ toString n
  else toString n

/-- Modelled from chrono: the `%Y` year field. -/
def yearString (y : Int) : String :=
  if y < 0 then "-" ++ pad4 y.natAbs else pad4 y.toNat

/-- Modelled from chrono: formatting an epoch-second datetime with
`"%Y-%m-%d %H:%M:%S"`. -/
def formatTimestamp (t : Int) : String :=
  let days := Int.fdiv t 86400
  let sod := (t - days * 86400).toNat
  let c := civilFromDays days
  yearString c.1 ++ "-" ++ pad2 c.2.1 ++ "-" ++ pad2 c.2.2 ++ " " ++
    pad2 (sod / 3600) ++ ":" ++ pad2 (sod % 3600 / 60) ++ ":" ++ pad2 (sod % 60)

/-! ### Name parsing and `Handler::from_options` -/

/-- A label is valid when nonempty and at most 63 characters. -/
def validLabel (l : List Char) : Bool :=
  decide (l ≠ []) && decide (l.length ≤ 63)

/-- Modelled from `trust_dns`: `Name::from_str` on the textual form,
splitting on dots into labels; fails on an empty string or an empty or
overlong label (charset and total-length checks of the library are not
modelled — no claim depends on them). -/
def nameFromChars (l : List Char) : Option (List String) :=
  if l = [] then none
  else
    let parts := splitOnChar '.' l
    if parts.all validLabel then some (parts.map fun p => String.mk p) else none

/-- `Name::from_str` on a `String`. -/
def nameFromStr (s : String) : Option (List String) :=
  nameFromChars s.toList

/-- The `Options` struct of `options.rs`; the `udp` and `tcp` listener
lists are transport-layer configuration never read by the handler code
and are omitted. -/
structure Options where
  domain : String
deriving DecidableEq, Repr

/-- The handler value `from_options` builds when every name parse
succeeds: counter 0 and the six derived zones obtained by prefixing one
label to the configured domain. -/
def handlerFromDomain (d : List String) : Handler where
  counter := 0
  root_zone := d
  counter_zone := "counter" :: d
  myip_zone := "myip" :: d
  coin_zone := "coin" :: d
  dice_zone := "dice" :: d
  cidr_zone := "cidr" :: d
  time_zone := "time" :: d

/-- `Handler::from_options` (lines 102-126): parses the domain and the
six derived `<label>.<domain>` strings, calling `.unwrap()` on each
parse; `none` models the panic of an `unwrap` on a failed parse, and
the counter starts at 0. -/
def from_options (o : Options) : Option Handler :=
  match nameFromStr o.domain with
  | none => none
  | some root =>
    match nameFromStr ("counter." ++ o.domain), nameFromStr ("myip." ++ o.domain),
          nameFromStr ("coin." ++ o.domain), nameFromStr ("dice." ++ o.domain),
          nameFromStr ("cidr." ++ o.domain), nameFromStr ("time." ++ o.domain) with
    | some cz, some mz, some coz, some dz, some ciz, some tz =>
      some { counter := 0, root_zone := root, counter_zone := cz, myip_zone := mz,
             coin_zone := coz, dice_zone := dz, cidr_zone := ciz, time_zone := tz }
    | _, _, _, _, _, _ => none

/-! ### Zone handlers

Each `do_handle_request_*` returns the Rust `Result` outcome (or a
panic), the counter cell's new value, and the list of messages handed
to `ResponseHandler::send_response`.  Every handler first performs
`counter.fetch_add(1, SeqCst)` (wrapping `u64` addition); a transport
send that fails surfaces as `Err(Error::Io(..))` through the `?` on
`send_response`. -/

/-- `ResponseHandler::send_response`: returns the sent message's
`ResponseInfo` on success, `none` on a transport failure. -/
def sendResponse (env : Env) (resp : DnsResponse) : Option HeaderT :=
  if env.sendOk then some resp.header else none

/-- Build, send and convert the send outcome, the common tail of every
successful handler body. -/
def finishSend (env : Env) (st : Nat) (resp : DnsResponse) :
    HRes × Nat × List DnsResponse :=
  match sendResponse env resp with
  | some info => (HRes.ok info, st, [resp])
  | none => (HRes.err ErrorT.io, st, [resp])

/-- `do_handle_request_myip` (lines 208-240): A/AAAA record echoing the
client source address, TTL 60, authoritative. -/
def do_handle_request_myip (env : Env) (st : Nat) (req : DnsRequest) :
    HRes × Nat × List DnsResponse :=
  let st1 := (st + 1) % 2 ^ 64
  let header : HeaderT := { rcode := RCode.noError, authoritative := true }
  let rdata := match req.src with
    | .v4 x => RData.A x
    | .v6 x => RData.AAAA x
  finishSend env st1 { header := header, answers := [{ name := req.qname, ttl := 60, rdata := rdata }] }

/-- `do_handle_request_counter` (lines 256-282): `fetch_add` returns the
previous counter value and that previous value is the TXT payload. -/
def do_handle_request_counter (env : Env) (st : Nat) (req : DnsRequest) :
    HRes × Nat × List DnsResponse :=
  let counter := st
  let st1 := (st + 1) % 2 ^ 64
  let header : HeaderT := { rcode := RCode.noError, authoritative := true }
  let rdata := RData.TXT [toString counter]
  finishSend env st1 { header := header, answers := [{ name := req.qname, ttl := 60, rdata := rdata }] }

/-- `do_handle_request_coin` (lines 296-323): TXT `heads`/`tails` from
the `rand::random()` oracle. -/
def do_handle_request_coin (env : Env) (st : Nat) (req : DnsRequest) :
    HRes × Nat × List DnsResponse :=
  let st1 := (st + 1) % 2 ^ 64
  let header : HeaderT := { rcode := RCode.noError, authoritative := true }
  let result := if env.coin then "heads" else "tails"
  finishSend env st1 { header := header, answers := [{ name := req.qname, ttl := 60, rdata := RData.TXT [result] }] }

/-- `do_handle_request_dice` (lines 338-367): TXT of the
`gen_range(1..7)` oracle value. -/
def do_handle_request_dice (env : Env) (st : Nat) (req : DnsRequest) :
    HRes × Nat × List DnsResponse :=
  let st1 := (st + 1) % 2 ^ 64
  let header : HeaderT := { rcode := RCode.noError, authoritative := true }
  finishSend env st1 { header := header, answers := [{ name := req.qname, ttl := 60, rdata := RData.TXT [toString env.dice] }] }

/-- `do_handle_request_cidr` (lines 381-464): lowercases the textual
query name (which carries the FQDN trailing dot), splits on dots,
demands exactly four pieces with head `cidr`, parses the address and
prefix pieces, computes the range and answers with the formatted TXT.
Every malformed-input branch executes `return todo!()`, which panics.
Because of the trailing dot the split of any wire name ends with an
empty piece, e.g. the zone apex `cidr.mentisnovae.tech.` splits into
`cidr`, `mentisnovae`, `tech`, `` — four pieces that pass the shape
check and then panic on the unparsable address piece. -/
def do_handle_request_cidr (env : Env) (st : Nat) (req : DnsRequest) :
    HRes × Nat × List DnsResponse :=
  let st1 := (st + 1) % 2 ^ 64
  let header : HeaderT := { rcode := RCode.noError, authoritative := true }
  let query_name := (nameToString req.qname).toList.map Char.toLower
  let query_parts := splitOnChar '.' query_name
  if query_parts.length ≠ 4 ∨ query_parts.headD [] ≠ "cidr".toList then
    (HRes.panic, st1, [])
  else
    match parseIpAddrChars (query_parts.getD 1 []) with
    | none => (HRes.panic, st1, [])
    | some ip_addr =>
      match parseU8Chars (query_parts.getD 2 []) with
      | none => (HRes.panic, st1, [])
      | some prefix_len =>
        match cidrRange env.le ip_addr prefix_len with
        | CidrOut.panic => (HRes.panic, st1, [])
        | CidrOut.range s e =>
          finishSend env st1
            { header := header,
              answers := [{ name := req.qname, ttl := 60, rdata := RData.TXT [cidrText s e] }] }

/-- The timestamp extraction of `handle_epoch_request` (lines 490-494):
strip the literal `epoch.` head and the literal (hardcoded)
`.mentisnovae.tech` tail, then parse the remainder as `u64`. -/
def epochTimestampChars (l : List Char) : Option Nat :=
  ((dropStart "epoch.".toList l).bind (dropEndChars ".mentisnovae.tech".toList)).bind
    parseU64Chars

/-- `epochTimestampChars` on a `String`. -/
def epochTimestamp (s : String) : Option Nat :=
  epochTimestampChars s.toList

/-- `handle_epoch_request` (lines 478-520).  On a failed extraction the
source returns the ad-hoc `format_args!("Invalid query name")` value
(`errFmt`; the `Error` enum has no matching variant and the line does
not type-check against it).  When chrono's range check fails the source
formats the missing datetime through a method `Option` does not have;
that stuck branch is modelled as a panic — no theorem below depends on
it.  The textual query name ends with the FQDN trailing dot, so the
`strip_suffix(".mentisnovae.tech")` step fails on every wire name and
the extraction never succeeds. -/
def handle_epoch_request (env : Env) (st : Nat) (req : DnsRequest) :
    HRes × Nat × List DnsResponse :=
  let st1 := (st + 1) % 2 ^ 64
  let query_name := nameToString req.qname
  match epochTimestamp query_name with
  | none => (HRes.errFmt, st1, [])
  | some ts =>
    match fromTimestampOpt (castI64 ts) with
    | none => (HRes.panic, st1, [])
    | some t =>
      let header : HeaderT := { rcode := RCode.noError, authoritative := true }
      finishSend env st1
        { header := header,
          answers := [{ name := req.qname, ttl := 60, rdata := RData.TXT [formatTimestamp t] }] }

/-- `do_handle_request_default` (lines 534-559): increments the counter
and sends an authoritative NXDOMAIN with no records. -/
def do_handle_request_default (env : Env) (st : Nat) (_req : DnsRequest) :
    HRes × Nat × List DnsResponse :=
  let st1 := (st + 1) % 2 ^ 64
  finishSend env st1 { header := { rcode := RCode.nxDomain, authoritative := true }, answers := [] }

/-! ### Dispatch -/

/-- Zone tags for the classification step. -/
inductive Zone
  | myIp
  | counter
  | coin
  | dice
  | cidr
  | time
  | root
deriving DecidableEq, Repr

/-- The guard chain of `do_handle_request` (lines 160-191): zones are
tried with `zone_of` — label-suffix matching — in the source order
myip, counter, coin, dice, cidr, time, root; `none` is the fall-through
`InvalidZone` arm. -/
def classifyZone (h : Handler) (n : List String) : Option Zone :=
  if h.myip_zone.isSuffixOf n then some Zone.myIp
  else if h.counter_zone.isSuffixOf n then some Zone.counter
  else if h.coin_zone.isSuffixOf n then some Zone.coin
  else if h.dice_zone.isSuffixOf n then some Zone.dice
  else if h.cidr_zone.isSuffixOf n then some Zone.cidr
  else if h.time_zone.isSuffixOf n then some Zone.time
  else if h.root_zone.isSuffixOf n then some Zone.root
  else none

/-- `do_handle_request` (lines 143-192): op-code and message-type
checks, then zone dispatch. -/
def do_handle_request (h : Handler) (env : Env) (st : Nat) (req : DnsRequest) :
    HRes × Nat × List DnsResponse :=
  if req.opCode ≠ OpCodeT.query then
    (HRes.err (ErrorT.invalidOpCode req.opCode), st, [])
  else if req.msgType ≠ MsgTypeT.query then
    (HRes.err (ErrorT.invalidMessageType req.msgType), st, [])
  else
    match classifyZone h req.qname with
    | some Zone.myIp => do_handle_request_myip env st req
    | some Zone.counter => do_handle_request_counter env st req
    | some Zone.coin => do_handle_request_coin env st req
    | some Zone.dice => do_handle_request_dice env st req
    | some Zone.cidr => do_handle_request_cidr env st req
    | some Zone.time => handle_epoch_request env st req
    | some Zone.root => do_handle_request_default env st req
    | none => (HRes.err (ErrorT.invalidZone req.qname), st, [])

/-- `RequestHandler::handle_request` (lines 573-597): an `Ok` info is
passed through; an error outcome is logged and converted into a fresh
`Header::new()` with response code ServFail, returned as the
`ResponseInfo` — nothing further is sent.  A panic in a handler is not
caught and escapes the boundary. -/
def handle_request (h : Handler) (env : Env) (st : Nat) (req : DnsRequest) :
    TopRes × Nat × List DnsResponse :=
  match do_handle_request h env st req with
  | (HRes.ok i, st2, sent) => (TopRes.info i, st2, sent)
  | (HRes.err _, st2, sent) => (TopRes.info { rcode := RCode.servFail, authoritative := false }, st2, sent)
  | (HRes.errFmt, st2, sent) => (TopRes.info { rcode := RCode.servFail, authoritative := false }, st2, sent)
  | (HRes.panic, st2, sent) => (TopRes.panic, st2, sent)

/-- Spec-side classifier, for the refinement claim about zone
precedence.  Modelled from the spec: the fixed precedence list MyIp,
Counter, Coin, Dice, Cidr, Time, Root is scanned for the first zone
whose base name the query name equals or is a sub-name of. -/
def classifySpecOrder (h : Handler) (n : List String) : Option Zone :=
  (([(h.myip_zone, Zone.myIp), (h.counter_zone, Zone.counter),
     (h.coin_zone, Zone.coin), (h.dice_zone, Zone.dice),
     (h.cidr_zone, Zone.cidr), (h.time_zone, Zone.time),
     (h.root_zone, Zone.root)].find?
      fun p => n == p.1 || p.1.isSuffixOf n)).map fun p => p.2

/-! ### Concrete fixtures used by the claim theorems -/

/-- The handler for the default configured domain `mentisnovae.tech`. -/
def h0 : Handler := handlerFromDomain ["mentisnovae", "tech"]

/-- A benign oracle environment: sends succeed, the host is
little-endian. -/
def env0 : Env := { sendOk := true, coin := true, dice := 4, le := true }

/-- A well-formed Counter-zone query. -/
def reqCounter : DnsRequest :=
  ⟨OpCodeT.query, MsgTypeT.query, ["counter", "mentisnovae", "tech"], .v4 ⟨203, 0, 113, 7⟩⟩

/-- A request with a non-query op code. -/
def reqBadOp : DnsRequest :=
  ⟨OpCodeT.status, MsgTypeT.query, ["counter", "mentisnovae", "tech"], .v4 ⟨203, 0, 113, 7⟩⟩

/-- A request with a non-query message type. -/
def reqBadType : DnsRequest :=
  ⟨OpCodeT.query, MsgTypeT.response, ["counter", "mentisnovae", "tech"], .v4 ⟨203, 0, 113, 7⟩⟩

/-- A query for the Cidr zone apex (three labels). -/
def reqCidrApex : DnsRequest :=
  ⟨OpCodeT.query, MsgTypeT.query, ["cidr", "mentisnovae", "tech"], .v4 ⟨203, 0, 113, 7⟩⟩

/-- A four-label Cidr query whose address label parses as neither IPv4
nor IPv6. -/
def reqCidrFoo : DnsRequest :=
  ⟨OpCodeT.query, MsgTypeT.query, ["cidr", "foo", "mentisnovae", "tech"], .v4 ⟨203, 0, 113, 7⟩⟩

/-- An epoch query for timestamp 0 under the hardcoded domain — the
exact name shape the claim regards as valid. -/
def reqEpoch0 : DnsRequest :=
  ⟨OpCodeT.query, MsgTypeT.query, ["epoch", "0", "mentisnovae", "tech"], .v4 ⟨203, 0, 113, 7⟩⟩

/-- A dispatched Time-zone query embedding epoch digits 0 under the
default domain. -/
def reqTimeEpoch0 : DnsRequest :=
  ⟨OpCodeT.query, MsgTypeT.query, ["epoch", "0", "time", "mentisnovae", "tech"], .v4 ⟨203, 0, 113, 7⟩⟩

/-- A Time-zone query under the default domain. -/
def reqTime : DnsRequest :=
  ⟨OpCodeT.query, MsgTypeT.query, ["time", "mentisnovae", "tech"], .v4 ⟨203, 0, 113, 7⟩⟩

/-- A query name sharing no suffix with the configured domain. -/
def reqNope : DnsRequest :=
  ⟨OpCodeT.query, MsgTypeT.query, ["nope", "com"], .v4 ⟨203, 0, 113, 7⟩⟩

/-! ### Helper lemmas -/

/-- Stripping a pattern from a list that starts with it yields the
remainder. -/
theorem dropStart_append (p r : List Char) : dropStart p (p ++ r) = some r := by
  induction p with
  | nil => rfl
  | cons c cs ih => simp [dropStart, ih]

/-- Stripping a pattern from a list that ends with it yields the
remainder. -/
theorem dropEnd_append (pat l : List Char) : dropEndChars pat (l ++ pat) = some l := by
  simp [dropEndChars, List.reverse_append, dropStart_append]

/-- Splitting distributes over a separator-free head followed by a
separator. -/
theorem splitOnChar_append (sep : Char) (p : List Char)
    (hd : p.all (fun c => ¬ (c = sep)) = true) (l : List Char) :
    splitOnChar sep (p ++ sep :: l) = p :: splitOnChar sep l := by
  induction p with
  | nil => simp [splitOnChar]
  | cons c cs ih =>
    simp only [List.all_cons, Bool.and_eq_true, decide_eq_true_eq] at hd
    simp [splitOnChar, hd.1, ih (by simpa using hd.2)]

/-- `nameFromChars` peels one leading valid dot-free label. -/
theorem nameFromChars_cons_label (p : List Char) (hv : validLabel p = true)
    (hd : p.all (fun c => ¬ (c = '.')) = true) (l : List Char) :
    nameFromChars (p ++ '.' :: l) =
      (nameFromChars l).map (fun ls => String.mk p :: ls) := by
  have h1 : p ++ '.' :: l ≠ [] := by simp
  rw [nameFromChars, if_neg h1, splitOnChar_append '.' p hd l]
  by_cases hl : l = []
  · subst hl
    simp [splitOnChar, nameFromChars, validLabel]
  · rw [nameFromChars, if_neg hl]
    simp only [List.all_cons, hv, Bool.true_and]
    by_cases hall : (splitOnChar '.' l).all validLabel
    · simp [hall]
    · simp [hall]

/-- `nameFromStr` peels one leading dotted label from a concatenated
domain string. -/
theorem nameFromStr_concat (labdot : String) (p : List Char)
    (hsplit : labdot.toList = p ++ ['.'])
    (hv : validLabel p = true) (hd : p.all (fun c => ¬ (c = '.')) = true)
    (s : String) :
    nameFromStr (labdot ++ s) = (nameFromStr s).map (fun ls => String.mk p :: ls) := by
  have ht : (labdot ++ s).toList = p ++ '.' :: s.toList := by
    show (labdot ++ s).data = p ++ '.' :: s.data
    rw [String.data_append]
    have : labdot.data = p ++ ['.'] := hsplit
    rw [this, List.append_assoc]
    rfl
  rw [nameFromStr, ht]
  exact nameFromChars_cons_label p hv hd s.toList

/-- A nonequal head makes label-suffix matching of equal-length lists
fail. -/
theorem ne_head_suffix (a b : String) (d : List String) (hab : a ≠ b) :
    (a :: d).isSuffixOf (b :: d) = false := by
  rw [Bool.eq_false_iff]
  intro hs
  have h := List.isSuffixOf_iff_suffix.mp hs
  have heq := h.eq_of_length (by simp)
  exact hab (by injection heq)

/-- Suffix matching against a longer zone implies suffix matching
against its parent. -/
theorem cons_suffix_false (x : String) (d n : List String)
    (h : d.isSuffixOf n = false) : (x :: d).isSuffixOf n = false := by
  rw [Bool.eq_false_iff] at h ⊢
  intro hs
  exact h (List.isSuffixOf_iff_suffix.mpr
    ((List.suffix_cons x d).trans (List.isSuffixOf_iff_suffix.mp hs)))

/-- A list is a label-suffix of itself. -/
theorem isSuffixOf_self (l : List String) : l.isSuffixOf l = true := by
  simp [List.isSuffixOf_iff_suffix]

/-- The spec's matching rule (name equals the base name or is a
sub-name of it) coincides with `zone_of` label-suffix matching. -/
theorem matchBool (z n : List String) :
    (n == z || z.isSuffixOf n) = z.isSuffixOf n := by
  by_cases h : n = z
  · subst h
    simp [isSuffixOf_self]
  · simp [h]

/-- If a name is not under the root, the classifier of a
domain-derived handler matches no zone. -/
theorem classifyZone_none_of_not_root (d n : List String)
    (h : d.isSuffixOf n = false) :
    classifyZone (handlerFromDomain d) n = none := by
  simp [classifyZone, handlerFromDomain, cons_suffix_false _ _ _ h, h]

/-- A successful `dropStart` strips exactly the pattern. -/
theorem dropStart_eq_some (p : List Char) :
    ∀ s r : List Char, dropStart p s = some r → s = p ++ r := by
  induction p with
  | nil =>
    intro s r h
    simp only [dropStart, Option.some.injEq] at h
    simp [h]
  | cons c cs ih =>
    intro s r h
    cases s with
    | nil => exact absurd h (by simp [dropStart])
    | cons d ds =>
      by_cases hdc : d = c
      · rw [dropStart, if_pos hdc] at h
        rw [hdc, List.cons_append, ih ds r h]
      · rw [dropStart, if_neg hdc] at h
        exact absurd h (by simp)

/-- Stripping the `.mentisnovae.tech` tail from a dot-terminated string
always fails: the pattern ends in `h`, the string in `.`. -/
theorem dropEnd_dot_fails (l2 : List Char) :
    dropEndChars ".mentisnovae.tech".toList (l2 ++ ['.']) = none := by
  have hpat : ".mentisnovae.tech".toList.reverse = 'h' :: "cet.eavonsitnem.".toList := by
    decide
  rw [dropEndChars, hpat, List.reverse_append]
  simp [dropStart]

/-- Stripping the `.mentisnovae.tech` tail from the empty string
fails. -/
theorem dropEnd_nil_fails :
    dropEndChars ".mentisnovae.tech".toList [] = none := by decide

/-- Every call of the Epoch handler fails: the textual query name of a
wire request carries the FQDN trailing dot, so the
`strip_suffix(".mentisnovae.tech")` step never succeeds and the handler
returns the ad-hoc invalid-query failure with nothing sent. -/
theorem handle_epoch_request_fails (env : Env) (st : Nat) (req : DnsRequest) :
    handle_epoch_request env st req = (HRes.errFmt, (st + 1) % 2 ^ 64, []) := by
  have hts : epochTimestamp (nameToString req.qname) = none := by
    have hchars : (nameToString req.qname).toList = (joinDots req.qname).toList ++ ['.'] := by
      show (joinDots req.qname ++ ".").data = (joinDots req.qname).data ++ ['.']
      rw [String.data_append]
    rw [epochTimestamp, hchars, epochTimestampChars]
    cases hdrop : dropStart "epoch.".toList ((joinDots req.qname).toList ++ ['.']) with
    | none => rfl
    | some r =>
      have heq := dropStart_eq_some _ _ _ hdrop
      rcases List.eq_nil_or_concat r with rfl | ⟨l2, a, rfl⟩
      · rfl
      · rw [List.concat_eq_append] at heq ⊢
        have hlast := congrArg List.getLast? heq
        rw [← List.append_assoc] at hlast
        simp only [List.getLast?_concat, Option.some.injEq] at hlast
        rw [Option.some_bind, ← hlast, dropEnd_dot_fails l2]
        rfl
  simp [handle_epoch_request, hts]

/-! ### Claim theorems -/

/-- C1, counterexample: with the counter cell at 0, a dispatched
Counter-zone request answers with TXT `"0"` — the value before the
increment — while the claim demands the post-increment value `"1"`;
the new cell value is 1, so the increment itself did happen. -/
theorem c1_counterexample :
    do_handle_request h0 env0 0 reqCounter =
      (HRes.ok { rcode := RCode.noError, authoritative := true }, 1,
        [{ header := { rcode := RCode.noError, authoritative := true },
           answers := [{ name := ["counter", "mentisnovae", "tech"], ttl := 60,
                         rdata := RData.TXT ["0"] }] }]) ∧
    ("0" : String) ≠ "1" := by
  exact ⟨by decide, by decide⟩

/-- C1, amended: the Counter handler increments the shared counter by
exactly 1 (wrapping `u64` addition) and its TXT answer is the decimal
string of the counter value BEFORE the increment — `fetch_add` returns
the previous value and that previous value is what is reported. -/
theorem c1_counter_reports_previous (env : Env) (st : Nat) (req : DnsRequest)
    (hs : env.sendOk = true) :
    do_handle_request_counter env st req =
      (HRes.ok { rcode := RCode.noError, authoritative := true }, (st + 1) % 2 ^ 64,
        [{ header := { rcode := RCode.noError, authoritative := true },
           answers := [{ name := req.qname, ttl := 60,
                         rdata := RData.TXT [toString st] }] }]) := by
  simp [do_handle_request_counter, finishSend, sendResponse, hs]

/-- C1 witness: the amended theorem evaluated at counter value 3 — the
TXT answer is `"3"` and the cell moves to 4. -/
theorem c1_witness :
    do_handle_request_counter env0 3 reqCounter =
      (HRes.ok { rcode := RCode.noError, authoritative := true }, 4,
        [{ header := { rcode := RCode.noError, authoritative := true },
           answers := [{ name := ["counter", "mentisnovae", "tech"], ttl := 60,
                         rdata := RData.TXT ["3"] }] }]) := by
  exact c1_counter_reports_previous env0 3 reqCounter rfl

/-- C2, counterexample: a request with a non-query op code is caught
and converted into a ServFail `ResponseInfo`, but the send log stays
empty — no SERVFAIL message is emitted to the client, so the query
receives no response; and a Cidr-zone apex query makes the dispatcher
panic, an error escaping the boundary as an unhandled fault. -/
theorem c2_counterexample :
    handle_request h0 env0 0 reqBadOp =
      (TopRes.info { rcode := RCode.servFail, authoritative := false }, 0, []) ∧
    handle_request h0 env0 0 reqCidrApex = (TopRes.panic, 1, []) := by
  exact ⟨by decide, by decide⟩

/-- C2, amended: every failure RETURNED AS AN ERROR VALUE from dispatch
(invalid op code, invalid message type, unmatched zone, epoch-handler
failure, transport-send failure) is caught at the outermost boundary
and converted into a `ResponseInfo` carrying server-failure status that
is handed back to the serving framework; the failure branch itself
sends nothing further, so no SERVFAIL message reaches the client on
this path. -/
theorem c2_errors_become_servfail (h : Handler) (env : Env) (st : Nat) (req : DnsRequest) :
    (∀ e st2 sent, do_handle_request h env st req = (HRes.err e, st2, sent) →
      handle_request h env st req =
        (TopRes.info { rcode := RCode.servFail, authoritative := false }, st2, sent)) ∧
    (∀ st2 sent, do_handle_request h env st req = (HRes.errFmt, st2, sent) →
      handle_request h env st req =
        (TopRes.info { rcode := RCode.servFail, authoritative := false }, st2, sent)) := by
  constructor
  · intro e st2 sent hEq
    rw [handle_request, hEq]
  · intro st2 sent hEq
    rw [handle_request, hEq]

/-- C2 witness: the amended theorem applied to the invalid-op-code
request and to a Time-zone request (whose epoch extraction fails). -/
theorem c2_witness :
    handle_request h0 env0 0 reqBadOp =
      (TopRes.info { rcode := RCode.servFail, authoritative := false }, 0, []) ∧
    handle_request h0 env0 5 reqTime =
      (TopRes.info { rcode := RCode.servFail, authoritative := false }, 6, []) := by
  exact ⟨(c2_errors_become_servfail h0 env0 0 reqBadOp).1
      (ErrorT.invalidOpCode OpCodeT.status) 0 [] (by decide),
    (c2_errors_become_servfail h0 env0 5 reqTime).2 6 [] (by decide)⟩

/-- C3: for IPv4 address 192.0.2.130 with prefix length 24 the range
computation applies `u32::to_be` before `Ipv4Addr::from(u32)`, so on a
little-endian host it yields the byte-swapped addresses 0.2.0.192 and
255.2.0.192 (and the TXT text renders them), not the claimed
192.0.2.0 - 192.0.2.255; only on a big-endian host does it produce the
claimed range. -/
theorem c3_cidr_endianness :
    cidrRange true (.v4 ⟨192, 0, 2, 130⟩) 24 =
      CidrOut.range (.v4 ⟨0, 2, 0, 192⟩) (.v4 ⟨255, 2, 0, 192⟩) ∧
    cidrRange false (.v4 ⟨192, 0, 2, 130⟩) 24 =
      CidrOut.range (.v4 ⟨192, 0, 2, 0⟩) (.v4 ⟨192, 0, 2, 255⟩) ∧
    cidrText (.v4 ⟨0, 2, 0, 192⟩) (.v4 ⟨255, 2, 0, 192⟩) =
      "Usable IP Range: 0.2.0.192 - 255.2.0.192" ∧
    "Usable IP Range: 0.2.0.192 - 255.2.0.192" ≠
      "Usable IP Range: 192.0.2.0 - 192.0.2.255" := by
  exact ⟨by decide, by decide, by decide, by decide⟩

/-- C4: a malformed Cidr-zone query does not produce an
`InvalidCidrQuery` error value — the `Error` enum has no such variant —
but executes `return todo!()`, a panic, which propagates through the
outermost boundary and leaves the request unanswered.  The zone apex
query (textually `cidr.mentisnovae.tech.`) splits into four pieces
whose address piece `mentisnovae` is unparsable; the four-label query
with address label `foo` splits into five pieces and fails the shape
check — both panic. -/
theorem c4_cidr_malformed_panics :
    do_handle_request_cidr env0 0 reqCidrApex = (HRes.panic, 1, []) ∧
    do_handle_request_cidr env0 0 reqCidrFoo = (HRes.panic, 1, []) ∧
    handle_request h0 env0 0 reqCidrApex = (TopRes.panic, 1, []) := by
  exact ⟨by decide, by decide, by decide⟩

/-- C5: prefix length 0 makes the range computation evaluate
`1 << 32` (resp. `1 << 128`), which overflows and panics in a debug
build instead of returning the full address-family range; prefix
lengths above the address width panic on the underflowing subtraction
`32 - prefix_len` (resp. `128 - prefix_len`) instead of failing input
validation; prefix length equal to the width does return the
single-address range. -/
theorem c5_cidr_prefix_bounds :
    cidrRange true (.v4 ⟨10, 0, 0, 1⟩) 0 = CidrOut.panic ∧
    cidrRange false (.v4 ⟨10, 0, 0, 1⟩) 0 = CidrOut.panic ∧
    cidrRange true (.v6 ⟨0, 0, 0, 0, 0, 0, 0, 1⟩) 0 = CidrOut.panic ∧
    cidrRange true (.v4 ⟨10, 0, 0, 1⟩) 33 = CidrOut.panic ∧
    cidrRange true (.v6 ⟨0, 0, 0, 0, 0, 0, 0, 1⟩) 129 = CidrOut.panic ∧
    cidrRange false (.v4 ⟨10, 0, 0, 1⟩) 32 =
      CidrOut.range (.v4 ⟨10, 0, 0, 1⟩) (.v4 ⟨10, 0, 0, 1⟩) ∧
    cidrRange true (.v6 ⟨0x2001, 0xdb8, 0, 0, 0, 0, 0, 1⟩) 128 =
      CidrOut.range (.v6 ⟨0x2001, 0xdb8, 0, 0, 0, 0, 0, 1⟩)
        (.v6 ⟨0x2001, 0xdb8, 0, 0, 0, 0, 0, 1⟩) := by
  refine ⟨by decide, by decide, by decide, by decide, by decide, by decide, by decide⟩

/-- C6: zone classification is a pure function of the query name that
coincides with the spec's precedence-list scan (MyIp, Counter, Coin,
Dice, Cidr, Time, Root, matching on equality or sub-name); on a
domain-derived handler `counter.<domain>` classifies as the Counter
zone, a name not under the root matches no zone, and dispatch then
fails with `InvalidZone` carrying the offending name, leaving the
counter untouched. -/
theorem c6_zone_classification :
    (∀ (h : Handler) (n : List String), classifyZone h n = classifySpecOrder h n) ∧
    (∀ d : List String,
      classifyZone (handlerFromDomain d) ("counter" :: d) = some Zone.counter) ∧
    (∀ d n : List String, d.isSuffixOf n = false →
      classifyZone (handlerFromDomain d) n = none) ∧
    (∀ (d : List String) (env : Env) (st : Nat) (req : DnsRequest),
      req.opCode = OpCodeT.query → req.msgType = MsgTypeT.query →
      d.isSuffixOf req.qname = false →
      do_handle_request (handlerFromDomain d) env st req =
        (HRes.err (ErrorT.invalidZone req.qname), st, [])) := by
  refine ⟨?_, ?_, ?_, ?_⟩
  · intro h n
    rw [classifyZone, classifySpecOrder]
    simp only [List.find?, matchBool]
    cases h1 : h.myip_zone.isSuffixOf n <;>
      cases h2 : h.counter_zone.isSuffixOf n <;>
        cases h3 : h.coin_zone.isSuffixOf n <;>
          cases h4 : h.dice_zone.isSuffixOf n <;>
            cases h5 : h.cidr_zone.isSuffixOf n <;>
              cases h6 : h.time_zone.isSuffixOf n <;>
                cases h7 : h.root_zone.isSuffixOf n <;>
                  simp [h1, h2, h3, h4, h5, h6, h7]
  · intro d
    have hm : (("myip" : String) :: d).isSuffixOf ("counter" :: d) = false :=
      ne_head_suffix _ _ _ (by decide)
    simp [classifyZone, handlerFromDomain, hm, isSuffixOf_self]
  · exact fun d n h => classifyZone_none_of_not_root d n h
  · intro d env st req h1 h2 h3
    simp [do_handle_request, h1, h2, classifyZone_none_of_not_root d req.qname h3]

/-- C6 witness: the classification facts at the default domain — the
`counter.mentisnovae.tech` name goes to the Counter zone, and a foreign
name yields `InvalidZone` with no increment. -/
theorem c6_witness :
    classifyZone h0 ["counter", "mentisnovae", "tech"] = some Zone.counter ∧
    do_handle_request h0 env0 0 reqNope =
      (HRes.err (ErrorT.invalidZone ["nope", "com"]), 0, []) := by
  exact ⟨c6_zone_classification.2.1 ["mentisnovae", "tech"],
    c6_zone_classification.2.2.2 ["mentisnovae", "tech"] env0 0 reqNope rfl rfl (by decide)⟩

/-- C7: a request whose op code is not the query op code fails with
`InvalidOpCode` before any zone handler runs — the counter is
unchanged and nothing is sent; likewise a query op code with a
non-query message type fails with `InvalidMessageType`. -/
theorem c7_precheck_rejects (h : Handler) (env : Env) (st : Nat) (req : DnsRequest) :
    (req.opCode ≠ OpCodeT.query →
      do_handle_request h env st req =
        (HRes.err (ErrorT.invalidOpCode req.opCode), st, [])) ∧
    (req.opCode = OpCodeT.query → req.msgType ≠ MsgTypeT.query →
      do_handle_request h env st req =
        (HRes.err (ErrorT.invalidMessageType req.msgType), st, [])) := by
  constructor
  · intro hop
    simp [do_handle_request, hop]
  · intro hop hmt
    simp [do_handle_request, hop, hmt]

/-- C7 witness: the pre-checks evaluated on a Status-op-code request and
on a response-typed message. -/
theorem c7_witness :
    do_handle_request h0 env0 0 reqBadOp =
      (HRes.err (ErrorT.invalidOpCode OpCodeT.status), 0, []) ∧
    do_handle_request h0 env0 0 reqBadType =
      (HRes.err (ErrorT.invalidMessageType MsgTypeT.response), 0, []) := by
  exact ⟨(c7_precheck_rejects h0 env0 0 reqBadOp).1 (by decide),
    (c7_precheck_rejects h0 env0 0 reqBadType).2 rfl (by decide)⟩

/-- C8: the Epoch handler never produces the claimed TXT answer for any
request.  `Name::to_string` on a wire name carries the FQDN trailing
dot, so `strip_suffix(".mentisnovae.tech")` fails on every query —
including `epoch.0.mentisnovae.tech`, the exact timestamp-0 shape of
the claim — and the handler always returns its ad-hoc invalid-query
failure (no `InvalidEpochQuery` variant exists in the `Error` enum).
End to end, the dispatched Time-zone query carrying epoch digits 0
yields a ServFail info with nothing sent. -/
theorem c8_epoch_always_fails :
    (∀ (env : Env) (st : Nat) (req : DnsRequest),
      handle_epoch_request env st req = (HRes.errFmt, (st + 1) % 2 ^ 64, [])) ∧
    handle_epoch_request env0 0 reqEpoch0 = (HRes.errFmt, 1, []) ∧
    handle_request h0 env0 0 reqTimeEpoch0 =
      (TopRes.info { rcode := RCode.servFail, authoritative := false }, 1, []) := by
  refine ⟨handle_epoch_request_fails, handle_epoch_request_fails env0 0 reqEpoch0, ?_⟩
  decide

/-- C9: `from_options` panics (an `unwrap` on a failed name parse,
modelled as `none`) whenever the domain string does not parse; when it
parses to labels `ls` the returned handler has counter 0 and exactly
the six derived zones `counter.`, `myip.`, `coin.`, `dice.`, `cidr.`,
`time.` prefixed to the configured domain. -/
theorem c9_from_options_unwrap (o : Options) :
    (nameFromStr o.domain = none → from_options o = none) ∧
    (∀ ls, nameFromStr o.domain = some ls →
      from_options o = some (handlerFromDomain ls)) := by
  constructor
  · intro h
    simp [from_options, h]
  · intro ls h
    have hc := nameFromStr_concat "counter." "counter".toList rfl (by decide) (by decide) o.domain
    have hm := nameFromStr_concat "myip." "myip".toList rfl (by decide) (by decide) o.domain
    have hco := nameFromStr_concat "coin." "coin".toList rfl (by decide) (by decide) o.domain
    have hd := nameFromStr_concat "dice." "dice".toList rfl (by decide) (by decide) o.domain
    have hci := nameFromStr_concat "cidr." "cidr".toList rfl (by decide) (by decide) o.domain
    have ht := nameFromStr_concat "time." "time".toList rfl (by decide) (by decide) o.domain
    rw [from_options, h, hc, hm, hco, hd, hci, ht, h]
    rfl

/-- C9 witness: an invalid domain (`bad..name`) panics the constructor
and the default domain yields the handler with counter 0 and the six
derived zones. -/
theorem c9_witness :
    from_options ⟨"bad..name"⟩ = none ∧
    from_options ⟨"mentisnovae.tech"⟩ = some (handlerFromDomain ["mentisnovae", "tech"]) := by
  exact ⟨(c9_from_options_unwrap ⟨"bad..name"⟩).1 (by decide),
    (c9_from_options_unwrap ⟨"mentisnovae.tech"⟩).2 ["mentisnovae", "tech"] (by decide)⟩

/-- C10: the epoch extraction parses the digit label as unsigned 64-bit
and the cast `as i64` wraps: the label `9223372036854775808`
(`2 ^ 63`, above `i64::MAX`) is accepted by the parser and wraps to the
negative timestamp `-2 ^ 63`, while a label with a leading minus sign
fails the unsigned parse. -/
theorem c10_unsigned_parse_cast_wraps :
    epochTimestamp "epoch.9223372036854775808.mentisnovae.tech" = some (2 ^ 63) ∧
    castI64 (2 ^ 63) = -(2 ^ 63) ∧
    castI64 (2 ^ 63) < 0 ∧
    epochTimestamp "epoch.-5.mentisnovae.tech" = none ∧
    parseU64Chars "9223372036854775808".toList = some 9223372036854775808 ∧
    parseU64Chars "-5".toList = none := by
  refine ⟨by decide, by decide, by decide, by decide, by decide, by decide⟩

end RustyDNS
